import Mathlib

/-!
Shallow embedding of `src/CT_files/anonymize.rs` (repository `puripuri2100/lung`).

The program is a sequential driver: it splits the `--input` and `--output`
CLI strings on commas, zips them into (input, output) pairs, and for each
pair opens the DICOM object at the input path, overwrites five attributes
(Patient Name, Patient ID, Patient Birth Date, Study ID, Institution Name),
and serializes the mutated object to the output path.  Any error aborts the
run via `?` propagation out of `main`.

The DICOM codec is an external collaborator; we model a parsed DICOM object
as an association list from tags to string values, with `element` (lookup)
and `put` (replace-or-append) mirroring the collaborator operations the
source uses.  The file system is a map from paths to optional contents; the
RNG is an ambient stream of naturals, and `rand::Rng::gen_range(0..b)`
is modelled by reduction of the stream value modulo `b` (its contract:
a value uniformly drawn in `[0, b)`).
-/

/-- A DICOM tag: (group, element) pair, e.g. (0x0010, 0x0010) for Patient Name. -/
structure DTag where
  group : Nat
  elem : Nat
deriving DecidableEq, Repr

/-- A parsed DICOM object: an association list from tags to (string) values.
The source only ever reads values with `.to_str()?`, so values are strings. -/
abbrev DicomObject := List (DTag × String)

/-- `obj.element(tag)` of the dicom-rs object model: the value at `tag`, if present. -/
def element (obj : DicomObject) (t : DTag) : Option String :=
  match obj with
  | [] => none
  | (t', v) :: rest => if t' = t then some v else element rest t

/-- `obj.put(DataElement::new(tag, vr, value))`: replace the element with this
tag in place, or append it if absent.  (The VR code does not affect the
value-level behaviour the claims are about, so it is not carried.) -/
def put (obj : DicomObject) (t : DTag) (v : String) : DicomObject :=
  match obj with
  | [] => [(t, v)]
  | (t', v') :: rest => if t' = t then (t, v) :: rest else (t', v') :: put rest t v

def tagPatientName : DTag := ⟨0x0010, 0x0010⟩
def tagPatientId : DTag := ⟨0x0010, 0x0020⟩
def tagPatientBirthDate : DTag := ⟨0x0010, 0x0030⟩
def tagStudyId : DTag := ⟨0x0020, 0x0010⟩
def tagInstitutionName : DTag := ⟨0x0008, 0x0080⟩

/-- The five target tags, in the order the source processes them. -/
def targetTags : List DTag :=
  [tagPatientName, tagPatientId, tagPatientBirthDate, tagStudyId, tagInstitutionName]

/-- `let new_patient_name = "puripuri^2100";` -/
def newPatientName : String := "puripuri^2100"

/-- `let new_patient_id = "0000123456";` (logged for Patient ID, but NOT written:
the source builds the Patient ID `DataElement` from `new_patient_name`). -/
def newPatientId : String := "0000123456"

/-- `let new_patient_birth_date = "200000401";` -/
def newPatientBirthDate : String := "200000401"

/-- `let new_institution_name = "FooBar Hospital";` -/
def newInstitutionName : String := "FooBar Hospital"

/-- The exclusive upper bound of `rng.gen_range(0..100000000000)`. -/
def studyIdBound : Nat := 100000000000

/-- Model of `rng.gen_range(0..bound)`: the raw stream value reduced into
`[0, bound)`.  (The rand crate guarantees only that the result lies in the
requested half-open range; `x % bound` captures exactly that.) -/
def genRange (bound : Nat) (x : Nat) : Nat := x % bound

/-- The decimal digit character for `d < 10`. -/
def digitOfNat (d : Nat) : Char :=
  match d with
  | 0 => '0' | 1 => '1' | 2 => '2' | 3 => '3' | 4 => '4'
  | 5 => '5' | 6 => '6' | 7 => '7' | 8 => '8' | 9 => '9'
  | _ => '*'

/-- Fuel-driven most-significant-first decimal rendering of a natural. -/
def decimalReprAux : Nat → Nat → List Char
  | 0, _ => []
  | fuel + 1, n =>
    if n < 10 then [digitOfNat n]
    else decimalReprAux fuel (n / 10) ++ [digitOfNat (n % 10)]

/-- The decimal rendering of `n` (as Rust `Display` for `usize` prints it). -/
def decimalRepr (n : Nat) : List Char := decimalReprAux (n + 1) n

/-- `format!("{n: >016}")`: Rust's sign-aware zero-pad flag `0` overrides the
explicit fill/align, so the number is left-padded with `'0'` to width 16. -/
def formatStudyId (n : Nat) : String :=
  String.mk (List.replicate (16 - (decimalRepr n).length) '0' ++ decimalRepr n)

/-- Numeric value of a big-endian digit-character list. -/
def parseDigits (cs : List Char) : Nat :=
  cs.foldl (fun a c => a * 10 + (c.toNat - 48)) 0

/-- Numeric value of a decimal string. -/
def parseDecimal (s : String) : Nat := parseDigits s.data

/-- One structured log line, as emitted by the `info!` calls of the source. -/
inductive LogLine where
  | startFile (input : String)
  | startRead (input : String)
  | endRead (input : String)
  | attrChange (attr : String) (oldV newV : String)
  | startWrite (output : String)
  | endWrite (output : String)
  | endFile (input : String)
deriving DecidableEq, Repr

/-- The only error the in-memory anonymization step can raise: a required tag
is absent, so `obj.element(tag)?` fails. -/
inductive AnonError where
  | missingAttribute (t : DTag)
deriving DecidableEq, Repr

/-- The loop body of `main` between the read and the write, translated
statement by statement: for each of the five attributes, read the old value
(failing if the tag is absent), log `old -> new`, and `put` the new element.
`n` is the raw RNG stream value consumed by `rng.gen_range` for this file.
Note the source defect kept verbatim: the Patient ID log line shows
`new_patient_id`, but the `DataElement` that is `put` carries
`new_patient_name`. -/
def anonymizeObj (obj0 : DicomObject) (n : Nat) :
    Except AnonError (DicomObject × List LogLine) :=
  match element obj0 tagPatientName with
  | none => .error (.missingAttribute tagPatientName)
  | some oldPatientName =>
    let log1 := LogLine.attrChange "Patient Name" oldPatientName newPatientName
    let obj1 := put obj0 tagPatientName newPatientName
    match element obj1 tagPatientId with
    | none => .error (.missingAttribute tagPatientId)
    | some oldPatientId =>
      let log2 := LogLine.attrChange "Patient ID" oldPatientId newPatientId
      let obj2 := put obj1 tagPatientId newPatientName
      match element obj2 tagPatientBirthDate with
      | none => .error (.missingAttribute tagPatientBirthDate)
      | some oldBirthDate =>
        let log3 := LogLine.attrChange "Patient Birth Date" oldBirthDate newPatientBirthDate
        let obj3 := put obj2 tagPatientBirthDate newPatientBirthDate
        match element obj3 tagStudyId with
        | none => .error (.missingAttribute tagStudyId)
        | some oldStudyId =>
          let newStudyId := formatStudyId (genRange studyIdBound n)
          let log4 := LogLine.attrChange "Study ID" oldStudyId newStudyId
          let obj4 := put obj3 tagStudyId newStudyId
          match element obj4 tagInstitutionName with
          | none => .error (.missingAttribute tagInstitutionName)
          | some oldInstitutionName =>
            let log5 := LogLine.attrChange "Institution Name" oldInstitutionName newInstitutionName
            let obj5 := put obj4 tagInstitutionName newInstitutionName
            .ok (obj5, [log1, log2, log3, log4, log5])

/-- Contents of a path: either bytes that do not parse as DICOM, or a parsed
DICOM object (`object::open_file` succeeds exactly on the latter). -/
inductive FileContent where
  | garbage
  | dicom (obj : DicomObject)
deriving DecidableEq, Repr

/-- The file system: a map from paths to contents. -/
abbrev FS := String → Option FileContent

/-- The error taxonomy of one file's processing, as propagated by `?`. -/
inductive RunError where
  | parseError (path : String)
  | missingAttribute (t : DTag)
  | writeError (path : String)
deriving DecidableEq, Repr

/-- One iteration of the `while let` loop: open the input (parse error if the
path is missing or not DICOM), anonymize in memory, and write the result to
the output path (write error if the path is not writable).  Returns the new
file system and the log lines of this iteration. -/
def processFile (writable : String → Bool) (fs : FS) (input output : String) (n : Nat) :
    Except RunError (FS × List LogLine) :=
  match fs input with
  | none => .error (.parseError input)
  | some .garbage => .error (.parseError input)
  | some (.dicom obj) =>
    match anonymizeObj obj n with
    | .error (.missingAttribute t) => .error (.missingAttribute t)
    | .ok (obj', logs) =>
      if writable output then
        .ok (fun p => if p = output then some (.dicom obj') else fs p,
          [LogLine.startFile input, LogLine.startRead input, LogLine.endRead input]
            ++ logs
            ++ [LogLine.startWrite output, LogLine.endWrite output, LogLine.endFile input])
      else .error (.writeError output)

/-- The `while let Some((input, output)) = files_stream.next().await` loop:
process the pairs in order, threading the file system; on the first error the
loop is abandoned and the error propagates out of `main` (the file system at
that moment is returned unchanged: already-written outputs remain, nothing is
rolled back).  `k` is the index of the next RNG draw in the stream. -/
def runPairsAux (writable : String → Bool) (rands : Nat → Nat) :
    FS → List (String × String) → Nat → FS × Except RunError Unit
  | fs, [], _ => (fs, .ok ())
  | fs, (input, output) :: rest, k =>
    match processFile writable fs input output (rands k) with
    | .error e => (fs, .error e)
    | .ok (fs', _) => runPairsAux writable rands fs' rest (k + 1)

/-- The whole run over a pair list, starting at RNG index 0. -/
def runPairs (writable : String → Bool) (rands : Nat → Nat) (fs : FS)
    (pairs : List (String × String)) : FS × Except RunError Unit :=
  runPairsAux writable rands fs pairs 0

/-- Rust `str::split(',')` on the character list: every comma separates two
fields, the empty string yields one empty field, and a leading, trailing or
doubled comma yields an empty field. -/
def splitCommaChars : List Char → List (List Char)
  | [] => [[]]
  | c :: rest =>
    if c = ',' then [] :: splitCommaChars rest
    else
      match splitCommaChars rest with
      | [] => [[c]]
      | s :: ss => (c :: s) :: ss

/-- `app_args.input.split(',')` on a Rust `&str`, as a Lean list of strings. -/
def splitComma (s : String) : List String :=
  (splitCommaChars s.data).map String.mk

/-- `input_list.iter().zip(output_list.iter())`: the positional pairing of the
two comma-split lists (Rust `zip` truncates to the shorter list). -/
def mkPairs (input output : String) : List (String × String) :=
  (splitComma input).zip (splitComma output)

/-- The process exit status determined by `main`'s `Result`: 0 on `Ok`,
nonzero on `Err`. -/
def exitCode (r : Except RunError Unit) : Nat :=
  match r with
  | .ok _ => 0
  | .error _ => 1

/-- The full program on CLI arguments: split, zip, run. -/
def lungMain (writable : String → Bool) (rands : Nat → Nat) (fs : FS)
    (input output : String) : FS × Except RunError Unit :=
  runPairs writable rands fs (mkPairs input output)

/-! ## Lemmas about the object model -/

/-- Lookup after `put`: the put tag now maps to the new value, every other tag
is untouched. -/
theorem element_put (obj : DicomObject) (t s : DTag) (v : String) :
    element (put obj t v) s = if s = t then some v else element obj s := by
  induction obj with
  | nil =>
    by_cases h : s = t
    · subst h; simp [put, element]
    · have h' : ¬ t = s := fun hh => h hh.symm
      simp [put, element, h, h']
  | cons hd tl ih =>
    obtain ⟨t', v'⟩ := hd
    by_cases h1 : t' = t
    · subst h1
      by_cases h2 : s = t'
      · subst h2; simp [put, element]
      · have h2' : ¬ t' = s := fun hh => h2 hh.symm
        simp [put, element, h2, h2']
    · by_cases h2 : t' = s
      · subst h2
        simp [put, element, h1]
      · simp [put, element, h1, h2, ih]

theorem element_put_self (obj : DicomObject) (t : DTag) (v : String) :
    element (put obj t v) t = some v := by
  rw [element_put, if_pos rfl]

theorem element_put_ne (obj : DicomObject) (t s : DTag) (v : String) (h : s ≠ t) :
    element (put obj t v) s = element obj s := by
  rw [element_put, if_neg h]

/-! ## Lemmas about decimal rendering -/

theorem decimalReprAux_stable (fuel : Nat) :
    ∀ fuel' n : Nat, n < fuel → n < fuel' →
      decimalReprAux fuel n = decimalReprAux fuel' n := by
  induction fuel with
  | zero => intro fuel' n h _; omega
  | succ f ih =>
    intro fuel' n h h'
    match fuel', h' with
    | g + 1, _ =>
      simp only [decimalReprAux]
      by_cases h10 : n < 10
      · simp [h10]
      · simp only [h10, if_false]
        have hdiv : n / 10 < n := Nat.div_lt_self (by omega) (by omega)
        rw [ih g (n / 10) (by omega) (by omega)]

/-- The natural unfolding of `decimalRepr`. -/
theorem decimalRepr_eq (n : Nat) :
    decimalRepr n = if n < 10 then [digitOfNat n]
      else decimalRepr (n / 10) ++ [digitOfNat (n % 10)] := by
  by_cases h : n < 10
  · simp only [decimalRepr, decimalReprAux, h, if_true]
  · have hdiv : n / 10 < n := Nat.div_lt_self (by omega) (by omega)
    have h1 : decimalRepr n = decimalReprAux n (n / 10) ++ [digitOfNat (n % 10)] := by
      simp only [decimalRepr, decimalReprAux, h, if_false]
    rw [if_neg h, h1,
      decimalReprAux_stable n (n / 10 + 1) (n / 10) (by omega) (by omega)]
    rfl

theorem decimalRepr_length_le (n : Nat) :
    ∀ k : Nat, 1 ≤ k → n < 10 ^ k → (decimalRepr n).length ≤ k := by
  induction n using Nat.strong_induction_on with
  | _ n ih =>
    intro k hk hn
    rw [decimalRepr_eq]
    by_cases h10 : n < 10
    · simp [h10]; omega
    · simp only [h10, if_false, List.length_append, List.length_cons, List.length_nil]
      have hk2 : 2 ≤ k := by
        rcases Nat.lt_or_ge k 2 with hlt | hge
        · exfalso
          have : k = 1 := by omega
          subst this
          simp at hn
          omega
        · exact hge
      have hdiv : n / 10 < n := Nat.div_lt_self (by omega) (by omega)
      have hbound : n / 10 < 10 ^ (k - 1) := by
        have hpow : 10 ^ (k - 1) * 10 = 10 ^ k := by
          rw [← pow_succ]
          congr 1
          omega
        have : n < 10 ^ (k - 1) * 10 := by omega
        omega
      have := ih (n / 10) hdiv (k - 1) (by omega) hbound
      omega

theorem digitOfNat_isDigit (d : Nat) (h : d < 10) : (digitOfNat d).isDigit = true := by
  interval_cases d <;> decide

theorem digitOfNat_val (d : Nat) (h : d < 10) : (digitOfNat d).toNat - 48 = d := by
  interval_cases d <;> decide

theorem decimalRepr_digits (n : Nat) : ∀ c ∈ decimalRepr n, c.isDigit = true := by
  induction n using Nat.strong_induction_on with
  | _ n ih =>
    rw [decimalRepr_eq]
    by_cases h10 : n < 10
    · simp only [h10, if_true, List.mem_singleton]
      intro c hc
      subst hc
      exact digitOfNat_isDigit n h10
    · simp only [h10, if_false]
      intro c hc
      rcases List.mem_append.1 hc with h1 | h2
      · exact ih (n / 10) (Nat.div_lt_self (by omega) (by omega)) c h1
      · rw [List.mem_singleton] at h2
        subst h2
        exact digitOfNat_isDigit _ (Nat.mod_lt _ (by omega))

theorem parseDigits_decimalRepr (n : Nat) : parseDigits (decimalRepr n) = n := by
  induction n using Nat.strong_induction_on with
  | _ n ih =>
    rw [decimalRepr_eq]
    by_cases h10 : n < 10
    · simp only [h10, if_true, parseDigits, List.foldl_cons, List.foldl_nil]
      rw [Nat.zero_mul, Nat.zero_add]
      exact digitOfNat_val n h10
    · simp only [h10, if_false, parseDigits, List.foldl_append, List.foldl_cons,
        List.foldl_nil]
      have h1 := ih (n / 10) (Nat.div_lt_self (by omega) (by omega))
      have h2 := digitOfNat_val (n % 10) (Nat.mod_lt _ (by omega))
      unfold parseDigits at h1
      rw [h1, h2]
      omega

theorem parseDigits_replicate_zero (k : Nat) (cs : List Char) :
    parseDigits (List.replicate k '0' ++ cs) = parseDigits cs := by
  induction k with
  | zero => simp
  | succ k ih =>
    have hrep : List.replicate (k + 1) '0' ++ cs = '0' :: (List.replicate k '0' ++ cs) := by
      simp [List.replicate_succ]
    rw [hrep]
    have hz : ('0'.toNat - 48 : Nat) = 0 := by decide
    simp only [parseDigits, List.foldl_cons, hz, Nat.mul_zero, Nat.zero_mul, Nat.add_zero]
    exact ih

theorem studyIdBound_eq_pow : studyIdBound = 10 ^ 11 := by norm_num [studyIdBound]

theorem formatStudyId_length (n : Nat) (h : n < studyIdBound) :
    (formatStudyId n).length = 16 := by
  have hlen : (decimalRepr n).length ≤ 11 := by
    apply decimalRepr_length_le n 11 (by omega)
    rw [← studyIdBound_eq_pow]
    exact h
  simp only [formatStudyId, String.length, List.length_append, List.length_replicate]
  omega

theorem formatStudyId_digits (n : Nat) :
    ∀ c ∈ (formatStudyId n).data, c.isDigit = true := by
  intro c hc
  simp only [formatStudyId] at hc
  rcases List.mem_append.1 hc with h1 | h2
  · have := List.eq_of_mem_replicate h1
    subst this
    decide
  · exact decimalRepr_digits n c h2

theorem parseDecimal_formatStudyId (n : Nat) : parseDecimal (formatStudyId n) = n := by
  simp only [parseDecimal, formatStudyId]
  rw [parseDigits_replicate_zero]
  exact parseDigits_decimalRepr n

theorem formatStudyId_injective {a b : Nat} (h : formatStudyId a = formatStudyId b) :
    a = b := by
  have ha := parseDecimal_formatStudyId a
  have hb := parseDecimal_formatStudyId b
  rw [← ha, ← hb, h]

theorem genRange_lt (bound x : Nat) (h : 0 < bound) : genRange bound x < bound :=
  Nat.mod_lt x h

/-! ## Dissection of one loop iteration -/

/-- The mutated object produced by a successful loop body, as a chain of the
five `put`s the source performs. -/
def anonymizedObject (obj : DicomObject) (n : Nat) : DicomObject :=
  put (put (put (put (put obj
    tagPatientName newPatientName)
    tagPatientId newPatientName)
    tagPatientBirthDate newPatientBirthDate)
    tagStudyId (formatStudyId (genRange studyIdBound n)))
    tagInstitutionName newInstitutionName

/-- What a successful `anonymizeObj` tells us: the five tags were present in
the input, the result object is the five-fold `put`, and the log is exactly
one `old -> new` line per attribute, in source order (with the Patient ID
line showing `newPatientId` even though `newPatientName` is written). -/
theorem anonymizeObj_ok_elim {obj : DicomObject} {n : Nat}
    {obj' : DicomObject} {logs : List LogLine}
    (h : anonymizeObj obj n = .ok (obj', logs)) :
    ∃ o1 o2 o3 o4 o5,
      element obj tagPatientName = some o1 ∧
      element obj tagPatientId = some o2 ∧
      element obj tagPatientBirthDate = some o3 ∧
      element obj tagStudyId = some o4 ∧
      element obj tagInstitutionName = some o5 ∧
      obj' = anonymizedObject obj n ∧
      logs = [LogLine.attrChange "Patient Name" o1 newPatientName,
              LogLine.attrChange "Patient ID" o2 newPatientId,
              LogLine.attrChange "Patient Birth Date" o3 newPatientBirthDate,
              LogLine.attrChange "Study ID" o4 (formatStudyId (genRange studyIdBound n)),
              LogLine.attrChange "Institution Name" o5 newInstitutionName] := by
  unfold anonymizeObj at h
  cases h1 : element obj tagPatientName with
  | none => rw [h1] at h; exact absurd h (by simp)
  | some o1 =>
  rw [h1] at h
  simp only at h
  rw [element_put_ne _ _ _ _ (by decide : tagPatientId ≠ tagPatientName)] at h
  cases h2 : element obj tagPatientId with
  | none => rw [h2] at h; exact absurd h (by simp)
  | some o2 =>
  rw [h2] at h
  simp only at h
  rw [element_put_ne _ _ _ _ (by decide : tagPatientBirthDate ≠ tagPatientId),
    element_put_ne _ _ _ _ (by decide : tagPatientBirthDate ≠ tagPatientName)] at h
  cases h3 : element obj tagPatientBirthDate with
  | none => rw [h3] at h; exact absurd h (by simp)
  | some o3 =>
  rw [h3] at h
  simp only at h
  rw [element_put_ne _ _ _ _ (by decide : tagStudyId ≠ tagPatientBirthDate),
    element_put_ne _ _ _ _ (by decide : tagStudyId ≠ tagPatientId),
    element_put_ne _ _ _ _ (by decide : tagStudyId ≠ tagPatientName)] at h
  cases h4 : element obj tagStudyId with
  | none => rw [h4] at h; exact absurd h (by simp)
  | some o4 =>
  rw [h4] at h
  simp only at h
  rw [element_put_ne _ _ _ _ (by decide : tagInstitutionName ≠ tagStudyId),
    element_put_ne _ _ _ _ (by decide : tagInstitutionName ≠ tagPatientBirthDate),
    element_put_ne _ _ _ _ (by decide : tagInstitutionName ≠ tagPatientId),
    element_put_ne _ _ _ _ (by decide : tagInstitutionName ≠ tagPatientName)] at h
  cases h5 : element obj tagInstitutionName with
  | none => rw [h5] at h; exact absurd h (by simp)
  | some o5 =>
  rw [h5] at h
  simp only [Except.ok.injEq, Prod.mk.injEq] at h
  exact ⟨o1, o2, o3, o4, o5, rfl, rfl, rfl, rfl, rfl, h.1.symm, h.2.symm⟩

/-! ## Dissection of one file's processing and of the run loop -/

/-- What a successful `processFile` tells us: the input held a DICOM object,
the in-memory step succeeded, the output was writable, and the new file
system differs from the old only at the output path, which now holds the
anonymized object. -/
theorem processFile_ok_elim {writable : String → Bool} {fs : FS}
    {input output : String} {n : Nat} {fs' : FS} {logs : List LogLine}
    (h : processFile writable fs input output n = .ok (fs', logs)) :
    ∃ obj obj' alogs,
      fs input = some (.dicom obj) ∧
      anonymizeObj obj n = .ok (obj', alogs) ∧
      writable output = true ∧
      fs' = (fun p => if p = output then some (.dicom obj') else fs p) := by
  unfold processFile at h
  cases hin : fs input with
  | none => rw [hin] at h; exact absurd h (by simp)
  | some content =>
  rw [hin] at h
  cases content with
  | garbage => exact absurd h (by simp)
  | dicom obj =>
  simp only at h
  cases han : anonymizeObj obj n with
  | error e => rw [han] at h; cases e; exact absurd h (by simp)
  | ok r =>
  obtain ⟨obj', alogs⟩ := r
  rw [han] at h
  simp only at h
  cases hw : writable output with
  | false => rw [hw] at h; exact absurd h (by simp)
  | true =>
  rw [hw] at h
  simp only [if_true, Except.ok.injEq, Prod.mk.injEq] at h
  exact ⟨obj, obj', alogs, rfl, han, rfl, h.1.symm⟩

/-- A failed `processFile` leaves the file system out of the result; the
run loop then stops with the file system it had. -/
theorem runPairsAux_cons_error {writable : String → Bool} {rands : Nat → Nat}
    {fs : FS} {input output : String} {rest : List (String × String)} {k : Nat}
    {e : RunError}
    (h : processFile writable fs input output (rands k) = .error e) :
    runPairsAux writable rands fs ((input, output) :: rest) k = (fs, .error e) := by
  simp only [runPairsAux, h]

/-- A successful `processFile` makes the loop continue on the rest. -/
theorem runPairsAux_cons_ok {writable : String → Bool} {rands : Nat → Nat}
    {fs fs' : FS} {input output : String} {rest : List (String × String)} {k : Nat}
    {logs : List LogLine}
    (h : processFile writable fs input output (rands k) = .ok (fs', logs)) :
    runPairsAux writable rands fs ((input, output) :: rest) k
      = runPairsAux writable rands fs' rest (k + 1) := by
  simp only [runPairsAux, h]

/-- Splitting the run loop at a list append. -/
theorem runPairsAux_append (writable : String → Bool) (rands : Nat → Nat)
    (pairs1 : List (String × String)) :
    ∀ (pairs2 : List (String × String)) (fs : FS) (k : Nat),
      runPairsAux writable rands fs (pairs1 ++ pairs2) k =
        match runPairsAux writable rands fs pairs1 k with
        | (fs', .ok _) => runPairsAux writable rands fs' pairs2 (k + pairs1.length)
        | (fs', .error e) => (fs', .error e) := by
  induction pairs1 with
  | nil => intro pairs2 fs k; simp [runPairsAux]
  | cons hd tl ih =>
    intro pairs2 fs k
    obtain ⟨i, o⟩ := hd
    have hconv : ((i, o) :: tl) ++ pairs2 = (i, o) :: (tl ++ pairs2) := rfl
    rw [hconv]
    cases hpf : processFile writable fs i o (rands k) with
    | error e =>
      rw [runPairsAux_cons_error hpf, runPairsAux_cons_error hpf]
    | ok r =>
      obtain ⟨fs', logs⟩ := r
      rw [runPairsAux_cons_ok hpf, runPairsAux_cons_ok hpf,
        ih pairs2 fs' (k + 1), List.length_cons]
      have harith : k + 1 + tl.length = k + (tl.length + 1) := by omega
      rw [harith]

/-- The run loop never touches a path that is not among the output paths of
its pair list (in particular it never writes to an input path). -/
theorem runPairsAux_frame (writable : String → Bool) (rands : Nat → Nat)
    (pairs : List (String × String)) :
    ∀ (fs : FS) (k : Nat) (p : String),
      p ∉ pairs.map Prod.snd →
      (runPairsAux writable rands fs pairs k).1 p = fs p := by
  induction pairs with
  | nil => intro fs k p _; rfl
  | cons hd tl ih =>
    intro fs k p hp
    obtain ⟨i, o⟩ := hd
    simp only [List.map_cons, List.mem_cons, not_or] at hp
    obtain ⟨hpo, hptl⟩ := hp
    cases hpf : processFile writable fs i o (rands k) with
    | error e =>
      rw [runPairsAux_cons_error hpf]
    | ok r =>
      obtain ⟨fs', logs⟩ := r
      rw [runPairsAux_cons_ok hpf, ih fs' (k + 1) p hptl]
      obtain ⟨obj, obj', alogs, _, _, _, hfs'⟩ := processFile_ok_elim hpf
      rw [hfs']
      simp [hpo]

/-- Once a path holds a DICOM object, it holds a DICOM object for the rest of
the run (later iterations either leave it alone or overwrite it with another
anonymized DICOM object). -/
theorem runPairsAux_dicom_stable (writable : String → Bool) (rands : Nat → Nat)
    (pairs : List (String × String)) :
    ∀ (fs : FS) (k : Nat) (p : String) (obj : DicomObject),
      fs p = some (.dicom obj) →
      ∃ obj', (runPairsAux writable rands fs pairs k).1 p = some (.dicom obj') := by
  induction pairs with
  | nil => intro fs k p obj h; exact ⟨obj, h⟩
  | cons hd tl ih =>
    intro fs k p obj h
    obtain ⟨i, o⟩ := hd
    cases hpf : processFile writable fs i o (rands k) with
    | error e =>
      rw [runPairsAux_cons_error hpf]
      exact ⟨obj, h⟩
    | ok r =>
      obtain ⟨fs', logs⟩ := r
      rw [runPairsAux_cons_ok hpf]
      obtain ⟨obj0, obj0', alogs, _, _, _, hfs'⟩ := processFile_ok_elim hpf
      by_cases hpo : p = o
      · exact ih fs' (k + 1) p obj0' (by rw [hfs']; simp [hpo])
      · exact ih fs' (k + 1) p obj (by rw [hfs']; simp [hpo, h])

/-- After a fully successful run, every pair's output path holds a DICOM
object. -/
theorem runPairsAux_ok_outputs (writable : String → Bool) (rands : Nat → Nat)
    (pairs : List (String × String)) :
    ∀ (fs : FS) (k : Nat),
      (runPairsAux writable rands fs pairs k).2 = .ok () →
      ∀ pr ∈ pairs,
        ∃ obj, (runPairsAux writable rands fs pairs k).1 pr.2 = some (.dicom obj) := by
  induction pairs with
  | nil => intro fs k _ pr hpr; exact absurd hpr (List.not_mem_nil pr)
  | cons hd tl ih =>
    intro fs k hok pr hpr
    obtain ⟨i, o⟩ := hd
    cases hpf : processFile writable fs i o (rands k) with
    | error e =>
      rw [runPairsAux_cons_error hpf] at hok
      exact absurd hok (by simp)
    | ok r =>
      obtain ⟨fs', logs⟩ := r
      rw [runPairsAux_cons_ok hpf] at hok ⊢
      obtain ⟨obj0, obj0', alogs, _, _, _, hfs'⟩ := processFile_ok_elim hpf
      rcases List.mem_cons.1 hpr with hhd | htl
      · subst hhd
        exact runPairsAux_dicom_stable writable rands tl fs' (k + 1) o obj0'
          (by rw [hfs']; simp)
      · exact ih fs' (k + 1) hok pr htl

/-! ## Tag-specialized lookup lemmas (the five tags are pairwise distinct) -/

theorem ep_ID_PN (obj : DicomObject) (v : String) :
    element (put obj tagPatientName v) tagPatientId = element obj tagPatientId :=
  element_put_ne _ _ _ _ (by decide)

theorem ep_BD_PN (obj : DicomObject) (v : String) :
    element (put obj tagPatientName v) tagPatientBirthDate
      = element obj tagPatientBirthDate :=
  element_put_ne _ _ _ _ (by decide)

theorem ep_BD_ID (obj : DicomObject) (v : String) :
    element (put obj tagPatientId v) tagPatientBirthDate
      = element obj tagPatientBirthDate :=
  element_put_ne _ _ _ _ (by decide)

theorem ep_SID_PN (obj : DicomObject) (v : String) :
    element (put obj tagPatientName v) tagStudyId = element obj tagStudyId :=
  element_put_ne _ _ _ _ (by decide)

theorem ep_SID_ID (obj : DicomObject) (v : String) :
    element (put obj tagPatientId v) tagStudyId = element obj tagStudyId :=
  element_put_ne _ _ _ _ (by decide)

theorem ep_SID_BD (obj : DicomObject) (v : String) :
    element (put obj tagPatientBirthDate v) tagStudyId = element obj tagStudyId :=
  element_put_ne _ _ _ _ (by decide)

theorem ep_IN_PN (obj : DicomObject) (v : String) :
    element (put obj tagPatientName v) tagInstitutionName
      = element obj tagInstitutionName :=
  element_put_ne _ _ _ _ (by decide)

theorem ep_IN_ID (obj : DicomObject) (v : String) :
    element (put obj tagPatientId v) tagInstitutionName
      = element obj tagInstitutionName :=
  element_put_ne _ _ _ _ (by decide)

theorem ep_IN_BD (obj : DicomObject) (v : String) :
    element (put obj tagPatientBirthDate v) tagInstitutionName
      = element obj tagInstitutionName :=
  element_put_ne _ _ _ _ (by decide)

theorem ep_IN_SID (obj : DicomObject) (v : String) :
    element (put obj tagStudyId v) tagInstitutionName
      = element obj tagInstitutionName :=
  element_put_ne _ _ _ _ (by decide)

/-- If all five tags are present, the loop body succeeds, producing exactly
the five-fold `put` object and the five log lines of the source. -/
theorem anonymizeObj_ok_intro {obj : DicomObject} {v1 v2 v3 v4 v5 : String} (n : Nat)
    (hv1 : element obj tagPatientName = some v1)
    (hv2 : element obj tagPatientId = some v2)
    (hv3 : element obj tagPatientBirthDate = some v3)
    (hv4 : element obj tagStudyId = some v4)
    (hv5 : element obj tagInstitutionName = some v5) :
    anonymizeObj obj n = .ok (anonymizedObject obj n,
      [LogLine.attrChange "Patient Name" v1 newPatientName,
       LogLine.attrChange "Patient ID" v2 newPatientId,
       LogLine.attrChange "Patient Birth Date" v3 newPatientBirthDate,
       LogLine.attrChange "Study ID" v4 (formatStudyId (genRange studyIdBound n)),
       LogLine.attrChange "Institution Name" v5 newInstitutionName]) := by
  simp only [anonymizeObj, anonymizedObject, ep_ID_PN, ep_BD_PN, ep_BD_ID, ep_SID_PN,
    ep_SID_ID, ep_SID_BD, ep_IN_PN, ep_IN_ID, ep_IN_BD, ep_IN_SID,
    hv1, hv2, hv3, hv4, hv5]

theorem anonymizedObject_PN (obj : DicomObject) (n : Nat) :
    element (anonymizedObject obj n) tagPatientName = some newPatientName := by
  unfold anonymizedObject
  rw [element_put_ne _ _ _ _ (by decide : tagPatientName ≠ tagInstitutionName),
    element_put_ne _ _ _ _ (by decide : tagPatientName ≠ tagStudyId),
    element_put_ne _ _ _ _ (by decide : tagPatientName ≠ tagPatientBirthDate),
    element_put_ne _ _ _ _ (by decide : tagPatientName ≠ tagPatientId),
    element_put_self]

theorem anonymizedObject_ID (obj : DicomObject) (n : Nat) :
    element (anonymizedObject obj n) tagPatientId = some newPatientName := by
  unfold anonymizedObject
  rw [element_put_ne _ _ _ _ (by decide : tagPatientId ≠ tagInstitutionName),
    element_put_ne _ _ _ _ (by decide : tagPatientId ≠ tagStudyId),
    element_put_ne _ _ _ _ (by decide : tagPatientId ≠ tagPatientBirthDate),
    element_put_self]

theorem anonymizedObject_BD (obj : DicomObject) (n : Nat) :
    element (anonymizedObject obj n) tagPatientBirthDate = some newPatientBirthDate := by
  unfold anonymizedObject
  rw [element_put_ne _ _ _ _ (by decide : tagPatientBirthDate ≠ tagInstitutionName),
    element_put_ne _ _ _ _ (by decide : tagPatientBirthDate ≠ tagStudyId),
    element_put_self]

theorem anonymizedObject_SID (obj : DicomObject) (n : Nat) :
    element (anonymizedObject obj n) tagStudyId
      = some (formatStudyId (genRange studyIdBound n)) := by
  unfold anonymizedObject
  rw [element_put_ne _ _ _ _ (by decide : tagStudyId ≠ tagInstitutionName),
    element_put_self]

theorem anonymizedObject_IN (obj : DicomObject) (n : Nat) :
    element (anonymizedObject obj n) tagInstitutionName = some newInstitutionName := by
  unfold anonymizedObject
  rw [element_put_self]

/-- If any target tag is absent, the loop body fails with a missing-attribute
error (for the first absent tag in processing order), whatever the RNG draw. -/
theorem anonymizeObj_missing {obj : DicomObject} {t : DTag}
    (ht : t ∈ targetTags) (hmiss : element obj t = none) :
    ∃ t', t' ∈ targetTags
      ∧ ∀ n, anonymizeObj obj n = .error (.missingAttribute t') := by
  cases h1 : element obj tagPatientName with
  | none =>
    exact ⟨tagPatientName, by decide, fun n => by simp only [anonymizeObj, h1]⟩
  | some v1 =>
  cases h2 : element obj tagPatientId with
  | none =>
    exact ⟨tagPatientId, by decide, fun n => by
      simp only [anonymizeObj, h1, ep_ID_PN, h2]⟩
  | some v2 =>
  cases h3 : element obj tagPatientBirthDate with
  | none =>
    exact ⟨tagPatientBirthDate, by decide, fun n => by
      simp only [anonymizeObj, h1, ep_ID_PN, h2, ep_BD_ID, ep_BD_PN, h3]⟩
  | some v3 =>
  cases h4 : element obj tagStudyId with
  | none =>
    exact ⟨tagStudyId, by decide, fun n => by
      simp only [anonymizeObj, h1, ep_ID_PN, h2, ep_BD_ID, ep_BD_PN, h3,
        ep_SID_BD, ep_SID_ID, ep_SID_PN, h4]⟩
  | some v4 =>
  cases h5 : element obj tagInstitutionName with
  | none =>
    exact ⟨tagInstitutionName, by decide, fun n => by
      simp only [anonymizeObj, h1, ep_ID_PN, h2, ep_BD_ID, ep_BD_PN, h3,
        ep_SID_BD, ep_SID_ID, ep_SID_PN, h4,
        ep_IN_SID, ep_IN_BD, ep_IN_ID, ep_IN_PN, h5]⟩
  | some v5 =>
  exfalso
  simp only [targetTags, List.mem_cons, List.not_mem_nil, or_false] at ht
  rcases ht with h | h | h | h | h <;> subst h <;>
    simp_all

/-! ## Concrete sample data -/

/-- A sample parsed DICOM object holding all five target tags plus one
unrelated tag (0008,0020), Study Date. -/
def sampleObj : DicomObject :=
  [(tagPatientName, "Alice"), (tagPatientId, "123"),
   (tagPatientBirthDate, "19800101"), (tagStudyId, "S1"),
   (tagInstitutionName, "General"), (⟨0x0008, 0x0020⟩, "20200101")]

/-- `sampleObj` after one anonymization pass with RNG draw 0. -/
def sampleObjAnon : DicomObject :=
  [(tagPatientName, "puripuri^2100"), (tagPatientId, "puripuri^2100"),
   (tagPatientBirthDate, "200000401"), (tagStudyId, "0000000000000000"),
   (tagInstitutionName, "FooBar Hospital"), (⟨0x0008, 0x0020⟩, "20200101")]

/-- The attribute log lines of that pass. -/
def sampleLogs : List LogLine :=
  [LogLine.attrChange "Patient Name" "Alice" "puripuri^2100",
   LogLine.attrChange "Patient ID" "123" "0000123456",
   LogLine.attrChange "Patient Birth Date" "19800101" "200000401",
   LogLine.attrChange "Study ID" "S1" "0000000000000000",
   LogLine.attrChange "Institution Name" "General" "FooBar Hospital"]

/-- The attribute log lines of a second pass over `sampleObjAnon` (draw 0). -/
def sampleLogsRepeat : List LogLine :=
  [LogLine.attrChange "Patient Name" "puripuri^2100" "puripuri^2100",
   LogLine.attrChange "Patient ID" "puripuri^2100" "0000123456",
   LogLine.attrChange "Patient Birth Date" "200000401" "200000401",
   LogLine.attrChange "Study ID" "0000000000000000" "0000000000000000",
   LogLine.attrChange "Institution Name" "FooBar Hospital" "FooBar Hospital"]

/-- A sample object with the Patient Birth Date tag absent. -/
def sampleObjMissing : DicomObject :=
  [(tagPatientName, "Alice"), (tagPatientId, "123"),
   (tagStudyId, "S1"), (tagInstitutionName, "General")]

/-- A sample file system: path "a" holds `sampleObj`, all other paths absent. -/
def sampleFS : FS := fun p => if p = "a" then some (.dicom sampleObj) else none

/-! ## The claims -/

/-- C1: for every (input, output) pair whose input parses as DICOM and
contains all five target tags, the anonymization step succeeds and the
output object has Patient Name "puripuri^2100", Patient ID "puripuri^2100"
(the Patient Name literal), Patient Birth Date "200000401", Institution Name
"FooBar Hospital", and Study ID equal to the string the Study ID generation
rule produces for this pair's RNG draw. -/
theorem anonymize_writes_specified_values (obj : DicomObject) (n : Nat)
    (h1 : (element obj tagPatientName).isSome = true)
    (h2 : (element obj tagPatientId).isSome = true)
    (h3 : (element obj tagPatientBirthDate).isSome = true)
    (h4 : (element obj tagStudyId).isSome = true)
    (h5 : (element obj tagInstitutionName).isSome = true) :
    ∃ obj' logs, anonymizeObj obj n = .ok (obj', logs)
      ∧ element obj' tagPatientName = some "puripuri^2100"
      ∧ element obj' tagPatientId = some "puripuri^2100"
      ∧ element obj' tagPatientBirthDate = some "200000401"
      ∧ element obj' tagInstitutionName = some "FooBar Hospital"
      ∧ element obj' tagStudyId = some (formatStudyId (genRange studyIdBound n)) := by
  obtain ⟨v1, hv1⟩ := Option.isSome_iff_exists.mp h1
  obtain ⟨v2, hv2⟩ := Option.isSome_iff_exists.mp h2
  obtain ⟨v3, hv3⟩ := Option.isSome_iff_exists.mp h3
  obtain ⟨v4, hv4⟩ := Option.isSome_iff_exists.mp h4
  obtain ⟨v5, hv5⟩ := Option.isSome_iff_exists.mp h5
  refine ⟨anonymizedObject obj n, _, anonymizeObj_ok_intro n hv1 hv2 hv3 hv4 hv5,
    ?_, ?_, ?_, ?_, ?_⟩
  · rw [anonymizedObject_PN]; rfl
  · rw [anonymizedObject_ID]; rfl
  · rw [anonymizedObject_BD]; rfl
  · rw [anonymizedObject_IN]; rfl
  · rw [anonymizedObject_SID]

/-- Witness for C1 at `sampleObj` with RNG draw 0. -/
theorem anonymize_writes_specified_values_witness :
    ∃ obj' logs, anonymizeObj sampleObj 0 = .ok (obj', logs)
      ∧ element obj' tagPatientName = some "puripuri^2100"
      ∧ element obj' tagPatientId = some "puripuri^2100"
      ∧ element obj' tagPatientBirthDate = some "200000401"
      ∧ element obj' tagInstitutionName = some "FooBar Hospital"
      ∧ element obj' tagStudyId = some (formatStudyId (genRange studyIdBound 0)) :=
  anonymize_writes_specified_values sampleObj 0 (by decide) (by decide) (by decide)
    (by decide) (by decide)

/-- C3: the generated Study ID string has length exactly 16, consists only of
decimal digits (left-padded with zeros), and its numeric value lies in
[0, 100000000000), for every raw RNG stream value. -/
theorem studyId_generation_rule (x : Nat) :
    (formatStudyId (genRange studyIdBound x)).length = 16
    ∧ (∀ c ∈ (formatStudyId (genRange studyIdBound x)).data, c.isDigit = true)
    ∧ parseDecimal (formatStudyId (genRange studyIdBound x)) < studyIdBound := by
  have hlt : genRange studyIdBound x < studyIdBound :=
    genRange_lt _ _ (by norm_num [studyIdBound])
  refine ⟨formatStudyId_length _ hlt, formatStudyId_digits _, ?_⟩
  rw [parseDecimal_formatStudyId]
  exact hlt

/-- C5 counterexample: the Patient Birth Date literal is not eight characters
long, so the claim as stated is false. -/
theorem birthDate_literal_not_eight_chars :
    ¬ (newPatientBirthDate = "200000401" ∧ newPatientBirthDate.length = 8) := by
  decide

/-- C5 amended: the constant literal written to Patient Birth Date is
"200000401", and this literal is nine characters long. -/
theorem birthDate_literal_nine_chars :
    newPatientBirthDate = "200000401" ∧ newPatientBirthDate.length = 9 := by
  decide

/-- C8: for a successfully processed object, every attribute other than the
five target tags is unchanged relative to the input object. -/
theorem anonymize_preserves_other_tags {obj : DicomObject} {n : Nat}
    {obj' : DicomObject} {logs : List LogLine}
    (h : anonymizeObj obj n = .ok (obj', logs))
    (t : DTag) (ht : t ∉ targetTags) :
    element obj' t = element obj t := by
  obtain ⟨o1, o2, o3, o4, o5, _, _, _, _, _, hobj', _⟩ := anonymizeObj_ok_elim h
  subst hobj'
  simp only [targetTags, List.mem_cons, List.not_mem_nil, or_false] at ht
  push_neg at ht
  obtain ⟨ht1, ht2, ht3, ht4, ht5⟩ := ht
  unfold anonymizedObject
  rw [element_put_ne _ _ _ _ ht5, element_put_ne _ _ _ _ ht4,
    element_put_ne _ _ _ _ ht3, element_put_ne _ _ _ _ ht2,
    element_put_ne _ _ _ _ ht1]

/-- Witness for C8: the Study Date tag (0008,0020) of `sampleObj` is
untouched. -/
theorem anonymize_preserves_other_tags_witness :
    element sampleObjAnon ⟨0x0008, 0x0020⟩ = element sampleObj ⟨0x0008, 0x0020⟩ :=
  anonymize_preserves_other_tags
    (show anonymizeObj sampleObj 0 = .ok (sampleObjAnon, sampleLogs) from rfl)
    ⟨0x0008, 0x0020⟩ (by decide)

/-- C9: re-running the anonymizer on its own output leaves Patient Name,
Patient ID, Patient Birth Date and Institution Name unchanged, while the
Study ID differs whenever the second RNG draw differs from the first. -/
theorem anonymize_idempotent_on_constants {obj obj1 obj2 : DicomObject}
    {n m : Nat} {l1 l2 : List LogLine}
    (h1 : anonymizeObj obj n = .ok (obj1, l1))
    (h2 : anonymizeObj obj1 m = .ok (obj2, l2)) :
    element obj2 tagPatientName = element obj1 tagPatientName
    ∧ element obj2 tagPatientId = element obj1 tagPatientId
    ∧ element obj2 tagPatientBirthDate = element obj1 tagPatientBirthDate
    ∧ element obj2 tagInstitutionName = element obj1 tagInstitutionName
    ∧ (genRange studyIdBound n ≠ genRange studyIdBound m →
        element obj2 tagStudyId ≠ element obj1 tagStudyId) := by
  obtain ⟨_, _, _, _, _, _, _, _, _, _, hobj1, _⟩ := anonymizeObj_ok_elim h1
  obtain ⟨_, _, _, _, _, _, _, _, _, _, hobj2, _⟩ := anonymizeObj_ok_elim h2
  subst hobj1
  subst hobj2
  refine ⟨?_, ?_, ?_, ?_, ?_⟩
  · rw [anonymizedObject_PN, anonymizedObject_PN]
  · rw [anonymizedObject_ID, anonymizedObject_ID]
  · rw [anonymizedObject_BD, anonymizedObject_BD]
  · rw [anonymizedObject_IN, anonymizedObject_IN]
  · intro hne
    rw [anonymizedObject_SID, anonymizedObject_SID]
    intro heq
    exact hne (formatStudyId_injective (Option.some.inj heq)).symm

/-- Witness for C9: anonymizing `sampleObj` twice with draw 0 both times. -/
theorem anonymize_idempotent_on_constants_witness :
    element sampleObjAnon tagPatientName = element sampleObjAnon tagPatientName
    ∧ element sampleObjAnon tagPatientId = element sampleObjAnon tagPatientId
    ∧ element sampleObjAnon tagPatientBirthDate
        = element sampleObjAnon tagPatientBirthDate
    ∧ element sampleObjAnon tagInstitutionName
        = element sampleObjAnon tagInstitutionName
    ∧ (genRange studyIdBound 0 ≠ genRange studyIdBound 0 →
        element sampleObjAnon tagStudyId ≠ element sampleObjAnon tagStudyId) :=
  anonymize_idempotent_on_constants
    (show anonymizeObj sampleObj 0 = .ok (sampleObjAnon, sampleLogs) from rfl)
    (show anonymizeObj sampleObjAnon 0 = .ok (sampleObjAnon, sampleLogsRepeat) from rfl)

/-- Splitting the run loop after a fully successful prefix. -/
theorem runPairsAux_append_ok {writable : String → Bool} {rands : Nat → Nat}
    {fs fs1 : FS} {pre : List (String × String)} {k : Nat}
    (h : runPairsAux writable rands fs pre k = (fs1, .ok ()))
    (pairs2 : List (String × String)) :
    runPairsAux writable rands fs (pre ++ pairs2) k
      = runPairsAux writable rands fs1 pairs2 (k + pre.length) := by
  rw [runPairsAux_append, h]

/-- C2: if the processing of the i-th pair fails, the whole run stops with
that error and a nonzero exit status; the file system is exactly the one the
successful prefix produced (no rollback): every earlier pair's output exists
on disk as a DICOM object, and no path outside the earlier outputs was
touched, so no output exists for the failing pair or any later pair (unless
the path pre-existed). -/
theorem run_aborts_on_first_error {writable : String → Bool} {rands : Nat → Nat}
    {fs fs1 : FS} {pre post : List (String × String)} {input output : String}
    {e : RunError}
    (h1 : runPairsAux writable rands fs pre 0 = (fs1, .ok ()))
    (h2 : processFile writable fs1 input output (rands pre.length) = .error e) :
    runPairs writable rands fs (pre ++ (input, output) :: post) = (fs1, .error e)
    ∧ exitCode (runPairs writable rands fs (pre ++ (input, output) :: post)).2 ≠ 0
    ∧ (∀ pr ∈ pre, ∃ obj, fs1 pr.2 = some (.dicom obj))
    ∧ (∀ p, p ∉ pre.map Prod.snd → fs1 p = fs p) := by
  have hfull : runPairs writable rands fs (pre ++ (input, output) :: post)
      = (fs1, .error e) := by
    unfold runPairs
    rw [runPairsAux_append_ok h1]
    have h0 : 0 + pre.length = pre.length := by omega
    rw [h0]
    exact runPairsAux_cons_error h2
  refine ⟨hfull, ?_, ?_, ?_⟩
  · rw [hfull]
    simp [exitCode]
  · intro pr hpr
    have hres := runPairsAux_ok_outputs writable rands pre fs 0 (by rw [h1]) pr hpr
    rw [h1] at hres
    exact hres
  · intro p hp
    have hres := runPairsAux_frame writable rands pre fs 0 p hp
    rw [h1] at hres
    exact hres

/-- Witness for C2: a one-pair run whose single input does not exist, failing
immediately with a parse error and leaving the (empty) file system as it was. -/
theorem run_aborts_on_first_error_witness :
    runPairs (fun _ => true) (fun _ => 0) (fun _ => none) ([] ++ ("a", "b") :: [])
      = ((fun _ => none : FS), .error (.parseError "a")) :=
  (@run_aborts_on_first_error (fun _ => true) (fun _ => 0) (fun _ => none)
    (fun _ => none) [] [] "a" "b" (.parseError "a") rfl rfl).1

/-- C4: the processed pairs are the positional zip of the comma-split input
list with the comma-split output list: there are exactly
min(len(inputs), len(outputs)) of them, the k-th pair is (inputs[k],
outputs[k]), and a fully successful run writes an output file for exactly
these pairs, with no error raised for a length mismatch. -/
theorem pairing_is_positional_zip (input output : String)
    (writable : String → Bool) (rands : Nat → Nat) (fs : FS) :
    (mkPairs input output).length
      = min (splitComma input).length (splitComma output).length
    ∧ (∀ (k : Nat) (pr : String × String),
        (mkPairs input output).get? k = some pr ↔
          ((splitComma input).get? k = some pr.1
            ∧ (splitComma output).get? k = some pr.2))
    ∧ ((runPairs writable rands fs (mkPairs input output)).2 = .ok () →
        ∀ pr ∈ mkPairs input output,
          ∃ obj, (runPairs writable rands fs (mkPairs input output)).1 pr.2
            = some (.dicom obj)) := by
  refine ⟨?_, ?_, ?_⟩
  · simp [mkPairs, List.length_zip]
  · intro k pr
    exact List.get?_zip_eq_some (splitComma input) (splitComma output) pr k
  · intro hok pr hpr
    exact runPairsAux_ok_outputs writable rands (mkPairs input output) fs 0 hok pr hpr

/-- Witness for C4: the comma-split lists "a,b" / "x" zip to one pair, and a
successful one-pair run writes the single output "x". -/
theorem pairing_is_positional_zip_witness :
    (mkPairs "a,b" "x").length = 1
    ∧ (∃ obj,
        (runPairs (fun _ => true) (fun _ => 0) sampleFS (mkPairs "a" "x")).1 "x"
          = some (.dicom obj)) := by
  constructor
  · have h := (pairing_is_positional_zip "a,b" "x" (fun _ => true) (fun _ => 0)
      sampleFS).1
    rw [h]
    decide
  · have h := (pairing_is_positional_zip "a" "x" (fun _ => true) (fun _ => 0)
      sampleFS).2.2
    have hok : (runPairs (fun _ => true) (fun _ => 0) sampleFS (mkPairs "a" "x")).2
        = .ok () := by rfl
    have hm : ("a", "x") ∈ mkPairs "a" "x" := by decide
    exact h hok ("a", "x") hm

/-- C6 counterexample: on `sampleObj`, the Patient ID log line shows new value
"0000123456", but the value actually stored for Patient ID in the output
object is "puripuri^2100", so the logged new value is not the written one. -/
theorem patientId_log_differs_from_written :
    anonymizeObj sampleObj 0 = .ok (sampleObjAnon, sampleLogs)
    ∧ LogLine.attrChange "Patient ID" "123" "0000123456" ∈ sampleLogs
    ∧ element sampleObjAnon tagPatientId = some "puripuri^2100"
    ∧ ("puripuri^2100" : String) ≠ "0000123456" := by
  refine ⟨rfl, by decide, rfl, by decide⟩

/-- C6 amended: a successfully processed file emits exactly one log line per
target attribute, old value followed by new value, in source order; the
logged new value is the value written for Patient Name, Patient Birth Date,
Study ID and Institution Name, but the Patient ID line logs "0000123456"
while the value written for Patient ID is "puripuri^2100". -/
theorem log_lines_per_attribute {obj : DicomObject} {n : Nat}
    {obj' : DicomObject} {logs : List LogLine}
    (h : anonymizeObj obj n = .ok (obj', logs)) :
    ∃ o1 o2 o3 o4 o5,
      logs = [LogLine.attrChange "Patient Name" o1 "puripuri^2100",
              LogLine.attrChange "Patient ID" o2 "0000123456",
              LogLine.attrChange "Patient Birth Date" o3 "200000401",
              LogLine.attrChange "Study ID" o4
                (formatStudyId (genRange studyIdBound n)),
              LogLine.attrChange "Institution Name" o5 "FooBar Hospital"]
      ∧ element obj' tagPatientName = some "puripuri^2100"
      ∧ element obj' tagPatientId = some "puripuri^2100"
      ∧ element obj' tagPatientBirthDate = some "200000401"
      ∧ element obj' tagStudyId = some (formatStudyId (genRange studyIdBound n))
      ∧ element obj' tagInstitutionName = some "FooBar Hospital" := by
  obtain ⟨o1, o2, o3, o4, o5, _, _, _, _, _, hobj', hlogs⟩ := anonymizeObj_ok_elim h
  subst hobj'
  refine ⟨o1, o2, o3, o4, o5, hlogs, ?_, ?_, ?_, ?_, ?_⟩
  · rw [anonymizedObject_PN]; rfl
  · rw [anonymizedObject_ID]; rfl
  · rw [anonymizedObject_BD]; rfl
  · rw [anonymizedObject_SID]
  · rw [anonymizedObject_IN]; rfl

/-- Witness for the amended C6 at `sampleObj` with RNG draw 0. -/
theorem log_lines_per_attribute_witness :
    ∃ o1 o2 o3 o4 o5,
      sampleLogs = [LogLine.attrChange "Patient Name" o1 "puripuri^2100",
              LogLine.attrChange "Patient ID" o2 "0000123456",
              LogLine.attrChange "Patient Birth Date" o3 "200000401",
              LogLine.attrChange "Study ID" o4
                (formatStudyId (genRange studyIdBound 0)),
              LogLine.attrChange "Institution Name" o5 "FooBar Hospital"]
      ∧ element sampleObjAnon tagPatientName = some "puripuri^2100"
      ∧ element sampleObjAnon tagPatientId = some "puripuri^2100"
      ∧ element sampleObjAnon tagPatientBirthDate = some "200000401"
      ∧ element sampleObjAnon tagStudyId
          = some (formatStudyId (genRange studyIdBound 0))
      ∧ element sampleObjAnon tagInstitutionName = some "FooBar Hospital" :=
  log_lines_per_attribute
    (show anonymizeObj sampleObj 0 = .ok (sampleObjAnon, sampleLogs) from rfl)

/-- C7: if any of the five target tags is absent from a parsed input object,
the processing of that file fails with a missing-attribute error, and a run
that reaches this file stops there with that error. -/
theorem missing_tag_aborts_run {obj : DicomObject} {t : DTag}
    (ht : t ∈ targetTags) (hmiss : element obj t = none) :
    ∃ t', t' ∈ targetTags
      ∧ (∀ n, anonymizeObj obj n = .error (.missingAttribute t'))
      ∧ (∀ (writable : String → Bool) (rands : Nat → Nat) (fs : FS)
           (input output : String) (rest : List (String × String)) (k : Nat),
          fs input = some (.dicom obj) →
          runPairsAux writable rands fs ((input, output) :: rest) k
            = (fs, .error (.missingAttribute t'))) := by
  obtain ⟨t', ht', hanon⟩ := anonymizeObj_missing ht hmiss
  refine ⟨t', ht', hanon, ?_⟩
  intro writable rands fs input output rest k hfs
  have hpf : processFile writable fs input output (rands k)
      = .error (.missingAttribute t') := by
    simp only [processFile, hfs, hanon (rands k)]
  exact runPairsAux_cons_error hpf

/-- Witness for C7: `sampleObjMissing` lacks Patient Birth Date. -/
theorem missing_tag_aborts_run_witness :
    ∃ t', t' ∈ targetTags
      ∧ (∀ n, anonymizeObj sampleObjMissing n = .error (.missingAttribute t'))
      ∧ (∀ (writable : String → Bool) (rands : Nat → Nat) (fs : FS)
           (input output : String) (rest : List (String × String)) (k : Nat),
          fs input = some (.dicom sampleObjMissing) →
          runPairsAux writable rands fs ((input, output) :: rest) k
            = (fs, .error (.missingAttribute t'))) :=
  @missing_tag_aborts_run sampleObjMissing tagPatientBirthDate (by decide) rfl

/-- C10: the run never writes to a path outside the output paths of its pair
list; in particular every input path whose path is not also some output path
is unchanged after the run. -/
theorem inputs_never_written (writable : String → Bool) (rands : Nat → Nat)
    (fs : FS) (pairs : List (String × String)) (k : Nat) (p : String)
    (hp : p ∉ pairs.map Prod.snd) :
    (runPairsAux writable rands fs pairs k).1 p = fs p :=
  runPairsAux_frame writable rands pairs fs k p hp

/-- Witness for C10: after running the pair ("a", "b"), the input path "a" is
unchanged. -/
theorem inputs_never_written_witness :
    (runPairsAux (fun _ => true) (fun _ => 0) sampleFS [("a", "b")] 0).1 "a"
      = sampleFS "a" :=
  inputs_never_written (fun _ => true) (fun _ => 0) sampleFS [("a", "b")] 0 "a"
    (by decide)
